import Mathlib

/-!
# Verification of the videoask-ai retrieval core

A shallow embedding, in Lean 4, of the retrieval pipeline of the
`videoask-ai` repository:

* `src/lib/chunking.ts` — sentence/segment chunking (`chunkText`,
  `chunkTranscript`, `chunkTranscriptSimple`);
* `src/lib/embeddings.ts` — `cosineSimilarity`, `findSimilarEmbeddings`;
* the in-memory vector store — `storeChunks`, `getChunks`, `searchSimilar`;
* the `/api/ask` route's search stage (top-3 search plus similarity filter).

Modelling conventions:

* JavaScript strings are `List Char`; the only whitespace appearing in the
  verified inputs is the ASCII kind, so `\s` is modelled by space, tab, CR
  and LF.
* JavaScript numbers carrying timestamps/offsets are exact rationals `ℚ`
  (the code only adds and divides by 1000).
* Embedding coordinates and similarity scores are real numbers `ℝ`
  (`Math.sqrt` forces irrational values, which `ℝ` models exactly).
* A thrown exception is `Except.error`; a normal return is `Except.ok`.
* `Array.prototype.sort` is stable (ECMAScript 2019), so sorting with the
  comparator `(a, b) => b.similarity - a.similarity` is the unique stable
  descending reordering; it is embedded as `List.insertionSort` with the
  relation `fun a b => b.similarity ≤ a.similarity`, which is stable and
  sorts descending.
-/

/-! ## Strings: whitespace, trimming, word counting, sentence matching -/

/-- ASCII whitespace, the fragment of JavaScript `\s` (and `trim`) that the
verified inputs use. -/
def isWsChar (c : Char) : Bool :=
  c == ' ' || c == '\t' || c == '\n' || c == '\r'

/-- JavaScript `String.prototype.trim`: drop whitespace at both ends. -/
def trimStr (s : List Char) : List Char :=
  ((s.dropWhile isWsChar).reverse.dropWhile isWsChar).reverse

/-- `text.split(/\s+/).filter(w => w.length > 0)`: splitting at every single
whitespace character and then discarding empty pieces leaves exactly the
maximal whitespace-free runs, which is what splitting at whitespace runs
returns. -/
def wordsNoTrim (s : List Char) : List (List Char) :=
  (s.splitOnP isWsChar).filter (fun w => !w.isEmpty)

/-- `text.trim().split(/\s+/).filter(w => w.length > 0).length`, the word
count used throughout `chunking.ts`. -/
def countWords (s : List Char) : ℕ :=
  (wordsNoTrim (trimStr s)).length

/-- A sentence terminator of the regex `[.!?]`. -/
def isSentEnd (c : Char) : Bool :=
  c == '.' || c == '!' || c == '?'

/-- One left-to-right pass implementing `text.match(/[^.!?]+[.!?]+/g)`:
`body` holds the reversed run of non-terminator characters of the match
being built, `fin` the reversed run of terminators following it.  A match
is one or more non-terminators followed by one or more terminators; a
trailing run with no terminator is not a match, and terminators that no
body precedes are skipped. -/
def sentsGo : List Char → List Char → List Char → List (List Char)
  | [], body, fin => if fin.isEmpty then [] else [body.reverse ++ fin.reverse]
  | c :: cs, body, fin =>
    if isSentEnd c then
      if body.isEmpty then sentsGo cs [] []
      else sentsGo cs body (c :: fin)
    else
      if fin.isEmpty then sentsGo cs (c :: body) []
      else (body.reverse ++ fin.reverse) :: sentsGo cs [c] []

/-- `text.match(/[^.!?]+[.!?]+/g) || [text]`: `match` yields `null` exactly
when there is no match, in which case the whole text is used as the single
"sentence". -/
def sentencesOf (s : List Char) : List (List Char) :=
  let m := sentsGo s [] []
  if m.isEmpty then [s] else m

/-! ## chunkText (src/lib/chunking.ts, lines 32-129) -/

/-- The chunk record of `chunking.ts`. -/
structure Chunk where
  text : List Char
  index : ℕ
  startOffset : ℕ
  endOffset : ℕ
  wordCount : ℕ
deriving DecidableEq, Repr

/-- The loop state of `chunkText`: emitted chunks, the sentences of the
chunk being built (already trimmed), its word count, the next chunk index,
and the running character offset. -/
structure CTState where
  chunks : List Chunk
  cur : List (List Char)
  curWC : ℕ
  idx : ℕ
  startOffset : ℕ

/-- Save the chunk being built, if it has content: `currentChunk.join(' ')`
is pushed with the next index and the offset advances past it and one
separator. -/
def flushCur (st : CTState) : CTState :=
  if st.cur.isEmpty then st
  else
    let t := List.intercalate [' '] st.cur
    { chunks := st.chunks ++
        [⟨t, st.idx, st.startOffset, st.startOffset + t.length, st.curWC⟩]
      cur := []
      curWC := 0
      idx := st.idx + 1
      startOffset := st.startOffset + t.length + 1 }

/-- One iteration of the sentence loop of `chunkText`. -/
def ctStep (targetWords : ℕ) (st : CTState) (sentence : List Char) : CTState :=
  let swc := countWords sentence
  if targetWords < swc then
    -- a single sentence exceeding the target: flush, then emit it whole
    -- (note the source uses the untrimmed sentence length for the offsets)
    let st1 := flushCur st
    { st1 with
      chunks := st1.chunks ++
        [⟨trimStr sentence, st1.idx, st1.startOffset,
          st1.startOffset + sentence.length, swc⟩]
      idx := st1.idx + 1
      startOffset := st1.startOffset + sentence.length + 1 }
  else if st.curWC + swc ≤ targetWords then
    { st with cur := st.cur ++ [trimStr sentence], curWC := st.curWC + swc }
  else
    let st1 := flushCur st
    { st1 with cur := [trimStr sentence], curWC := swc }

/-- `chunkText(text, targetWords)` of `src/lib/chunking.ts`. -/
def chunkText (text : List Char) (targetWords : ℕ) : List Chunk :=
  if text.isEmpty || (trimStr text).isEmpty || countWords text == 0 then []
  else
    let st := (sentencesOf text).foldl (ctStep targetWords) ⟨[], [], 0, 0, 0⟩
    let fin := flushCur st
    if fin.chunks.isEmpty || fin.chunks.all (fun c => c.wordCount == 0) then []
    else fin.chunks

/-! ## chunkTranscript (src/lib/chunking.ts, lines 138-258) -/

/-- A transcript segment (`{ text, offset, duration? }`), offsets in
milliseconds. -/
structure Segment where
  text : List Char
  offset : ℚ
  duration : Option ℚ := none
deriving DecidableEq, Repr

/-- A chunk extended with the optional video timestamps, in seconds. -/
structure TChunk extends Chunk where
  timestamp : Option ℚ := none
  endTimestamp : Option ℚ := none
deriving DecidableEq, Repr

/-- `combineTranscript`: join the segment texts with single spaces. -/
def combineTranscript (t : List Segment) : List Char :=
  List.intercalate [' '] (t.map (·.text))

/-- The first scan of `chunkTranscriptSimple`: find the transcript item
containing character offset `off` (items contribute `text.length + 1`
positions each) and take its start time, in seconds. -/
def scanStartTs : List Segment → ℕ → ℕ → Option ℚ
  | [], _, _ => none
  | item :: rest, off, textPos =>
    if textPos ≤ off ∧ off < textPos + item.text.length then
      some (item.offset / 1000)
    else scanStartTs rest off (textPos + item.text.length + 1)

/-- The second scan of `chunkTranscriptSimple`: as `scanStartTs` but the
found item yields `(offset + (duration || 0)) / 1000`. -/
def scanEndTs : List Segment → ℕ → ℕ → Option ℚ
  | [], _, _ => none
  | item :: rest, off, textPos =>
    if textPos ≤ off ∧ off < textPos + item.text.length then
      some ((item.offset + item.duration.getD 0) / 1000)
    else scanEndTs rest off (textPos + item.text.length + 1)

/-- `chunkTranscriptSimple`: chunk the combined text, then map each chunk's
character span back to segment timestamps. -/
def chunkTranscriptSimple (t : List Segment) (targetWords : ℕ) : List TChunk :=
  (chunkText (combineTranscript t) targetWords).map fun ch =>
    { toChunk := ch
      timestamp := scanStartTs t ch.startOffset 0
      endTimestamp := scanEndTs t ch.endOffset 0 }

/-- `SEGMENTS_PER_CHUNK`, the window size of the overlapped mode. -/
def SEGMENTS_PER_CHUNK : ℕ := 5

/-- The windowed loop of `chunkTranscript`:
`for (let i = 0; i < transcript.length; i += SEGMENTS_PER_CHUNK - OVERLAP)`.
The loop variable advances by `stride = SEGMENTS_PER_CHUNK - overlap`; the
source computes this in plain JavaScript arithmetic with no clamping, so for
`overlap = 5` the stride is `0` and the loop never terminates.  The embedding
makes each iteration spend one unit of `fuel`; `none` means the fuel ran out
with the loop still running.  (For `overlap > 5` the JavaScript stride is
negative and the loop diverges as well; the ℕ truncation `5 - overlap = 0`
used here diverges identically.) -/
def windowLoop (t : List Segment) (stride : ℕ) :
    ℕ → ℕ → List TChunk → Option (List TChunk)
  | 0, _, _ => none
  | fuel + 1, i, acc =>
    if i < t.length then
      match (t.drop i).take SEGMENTS_PER_CHUNK with
      | [] => windowLoop t stride fuel (i + stride) acc -- `continue` on an empty slice
      | s0 :: srest =>
        let text := trimStr (List.intercalate [' '] ((s0 :: srest).map (·.text)))
        if text.length < 10 then
          windowLoop t stride fuel (i + stride) acc -- skip tiny chunks
        else
          let endSeg := List.getLastD srest s0
          let c : TChunk :=
            { text := text
              index := acc.length
              startOffset := 0
              endOffset := 0
              wordCount := (wordsNoTrim text).length
              timestamp := some (s0.offset / 1000)
              endTimestamp := some ((endSeg.offset + endSeg.duration.getD 0) / 1000) }
          windowLoop t stride fuel (i + stride) (acc ++ [c])
    else some acc

/-- `chunkTranscript(transcript, targetWords, overlapSegments)`: simple mode
when overlap is disabled or the transcript is short, else the windowed loop
with stride `SEGMENTS_PER_CHUNK - overlapSegments`. -/
def chunkTranscript (t : List Segment) (targetWords overlapSegments fuel : ℕ) :
    Option (List TChunk) :=
  if overlapSegments = 0 ∨ t.length < 10 then
    some (chunkTranscriptSimple t targetWords)
  else windowLoop t (SEGMENTS_PER_CHUNK - overlapSegments) fuel 0 []

/-! ## Cosine similarity (src/lib/embeddings.ts, lines 128-173)

Similarity scores live in `ℝ` because `Math.sqrt` produces irrational
values; the definitions below are therefore noncomputable, and concrete
evaluations are carried out by proof (`norm_num`/`simp`). -/

/-- An embedding vector. -/
abbrev Embedding := List ℝ

/-- `a.reduce((sum, val, i) => sum + val * b[i], 0)`.  The source evaluates
this only after checking `a.length === b.length`, so pairing the lists
positionally is exact; real addition is associative and commutative, so the
fold direction is immaterial. -/
def dotProduct : List ℝ → List ℝ → ℝ
  | a :: as, b :: bs => a * b + dotProduct as bs
  | _, _ => 0

/-- `v.reduce((sum, val) => sum + val * val, 0)`, the squared magnitude. -/
def sumSq : List ℝ → ℝ
  | [] => 0
  | x :: xs => x * x + sumSq xs

/-- `cosineSimilarity(a, b)`: throws on a dimension mismatch, returns `0`
when either magnitude is zero, else `dot / (magA * magB)`. -/
noncomputable def cosineSimilarity (a b : Embedding) : Except String ℝ :=
  if a.length ≠ b.length then .error "Embedding dimensions don't match"
  else
    let magA := Real.sqrt (sumSq a)
    let magB := Real.sqrt (sumSq b)
    if magA = 0 ∨ magB = 0 then .ok 0
    else .ok (dotProduct a b / (magA * magB))

/-- One entry of `findSimilarEmbeddings`' intermediate array:
`{ index, similarity }` with `index` the candidate's position. -/
structure SimMatch where
  index : ℕ
  similarity : ℝ

/-- `candidateEmbeddings.map((embedding, index) => ({ index, similarity:
cosineSimilarity(queryEmbedding, embedding) }))`, evaluated left to right;
the first thrown error aborts the whole call, as in JavaScript. -/
noncomputable def mapSims (q : Embedding) :
    List Embedding → ℕ → Except String (List SimMatch)
  | [], _ => .ok []
  | e :: es, i =>
    match cosineSimilarity q e with
    | .error msg => .error msg
    | .ok s =>
      match mapSims q es (i + 1) with
      | .error msg => .error msg
      | .ok rest => .ok (⟨i, s⟩ :: rest)

noncomputable instance : DecidableRel
    (fun a b : SimMatch => b.similarity ≤ a.similarity) :=
  fun _ _ => Real.decidableLE _ _

/-- `.sort((a, b) => b.similarity - a.similarity)`: the stable descending
sort by similarity.  `List.insertionSort` with `b.similarity ≤ a.similarity`
is stable (an element is inserted before the elements it ties with only when
it preceded them) and sorts by non-increasing similarity, which is the unique
result a stable comparator sort may produce. -/
noncomputable def sortMatches (l : List SimMatch) : List SimMatch :=
  List.insertionSort (fun a b => b.similarity ≤ a.similarity) l

/-- `findSimilarEmbeddings(queryEmbedding, candidateEmbeddings, topK)`. -/
noncomputable def findSimilarEmbeddings (q : Embedding)
    (cands : List Embedding) (topK : ℕ) : Except String (List SimMatch) :=
  match mapSims q cands 0 with
  | .error msg => .error msg
  | .ok sims => .ok ((sortMatches sims).take topK)

/-! ## The in-memory vector store (src/lib/vectorStore.ts) -/

/-- The input chunk of `storeChunks`
(`{ text, timestamp?, endTimestamp?, wordCount, index, framePath?,
thumbnailPath? }`). -/
structure StoreChunkIn where
  text : List Char
  timestamp : Option ℚ := none
  endTimestamp : Option ℚ := none
  wordCount : ℕ
  index : ℕ
  framePath : Option String := none
  thumbnailPath : Option String := none

/-- The metadata of a stored `VectorChunk`.  (The optional
`...metadata` spread of extra untyped keys plays no role in any verified
property and is omitted.) -/
structure VCMetadata where
  videoId : String
  chunkIndex : ℕ
  timestamp : Option ℚ
  endTimestamp : Option ℚ
  wordCount : ℕ
  framePath : Option String
  thumbnailPath : Option String

/-- A record of the vector store. -/
structure VectorChunk where
  id : String
  text : List Char
  embedding : Embedding
  metadata : VCMetadata

/-- The store is a `Map<string, VectorChunk[]>`; an association list with
at most one binding per key models it. -/
abbrev Store := List (String × List VectorChunk)

/-- `Map.prototype.get`. -/
def mapGet : Store → String → Option (List VectorChunk)
  | [], _ => none
  | (k, v) :: rest, key => if k = key then some v else mapGet rest key

/-- `Map.prototype.set`: replace the binding of `key`, or append one. -/
def mapSet : Store → String → List VectorChunk → Store
  | [], key, v => [(key, v)]
  | (k, w) :: rest, key, v =>
    if k = key then (key, v) :: rest else (k, w) :: mapSet rest key v

/-- The record array `storeChunks` builds:
`chunks.map((chunk, index) => ({ id: videoId-chunk.index, ...,
embedding: embeddings[index], ... }))`; the lengths are equal whenever this
runs, so the positional pairing is `zipWith`. -/
def buildVectorChunks (videoId : String) (chunks : List StoreChunkIn)
    (embeddings : List Embedding) : List VectorChunk :=
  List.zipWith
    (fun c e =>
      { id := videoId ++ "-" ++ toString c.index
        text := c.text
        embedding := e
        metadata :=
          { videoId := videoId
            chunkIndex := c.index
            timestamp := c.timestamp
            endTimestamp := c.endTimestamp
            wordCount := c.wordCount
            framePath := c.framePath
            thumbnailPath := c.thumbnailPath } })
    chunks embeddings

/-- `storeChunks(videoId, chunks, embeddings)`: throws when the chunk and
embedding counts differ, else installs the freshly built record array for
`videoId` with a single `Map.set`.  Note the source checks nothing else; in
particular it never inspects the dimensions of the embeddings. -/
def storeChunks (store : Store) (videoId : String) (chunks : List StoreChunkIn)
    (embeddings : List Embedding) : Except String Store :=
  if chunks.length ≠ embeddings.length then
    .error "Chunk count doesn't match embedding count"
  else .ok (mapSet store videoId (buildVectorChunks videoId chunks embeddings))

/-- `getChunks(videoId)`: `vectorStore.get(videoId) || []`. -/
def getChunks (store : Store) (videoId : String) : List VectorChunk :=
  (mapGet store videoId).getD []

/-- A search result: `{ ...chunks[match.index], similarity }`. -/
structure SearchResult where
  chunk : VectorChunk
  similarity : ℝ

/-- Placeholder for an out-of-bounds array access; `searchSimilar` only
indexes with positions produced from the same array, so it is never used. -/
def defaultVC : VectorChunk :=
  { id := "", text := [], embedding := [], metadata := ⟨"", 0, none, none, 0, none, none⟩ }

/-- The pure body of `searchSimilar`, acting on the one chunk array read
from the map.  The source reads the map exactly once (`getChunks`) and all
further work is on that array, which is what makes a concurrent `Map.set`
invisible to an ongoing search. -/
noncomputable def searchChunks (chunks : List VectorChunk) (q : Embedding)
    (topK : ℕ) : Except String (List SearchResult) :=
  if chunks.length = 0 then .ok []
  else
    match findSimilarEmbeddings q (chunks.map (·.embedding)) topK with
    | .error msg => .error msg
    | .ok ms =>
      .ok (ms.map fun m => ⟨chunks.getD m.index defaultVC, m.similarity⟩)

/-- `searchSimilar(videoId, queryEmbedding, topK)`. -/
noncomputable def searchSimilar (store : Store) (videoId : String)
    (q : Embedding) (topK : ℕ) : Except String (List SearchResult) :=
  searchChunks (getChunks store videoId) q topK

/-! ## The ask route's search stage (src/app/api/ask, step 2) -/

/-- The fixed relevance threshold of the `/api/ask` route. -/
noncomputable def SIMILARITY_THRESHOLD : ℝ := 0.3

/-- What the search stage of one `/api/ask` request produces: the chunks
admitted to the grounding context and the `chunkCount` reported by the
stage-completion event. -/
structure AskSearchOutcome where
  contextChunks : List SearchResult
  chunkCount : ℕ

/-- The search stage of the ask route:
`foundChunks = searchSimilar(videoId, questionEmbedding, 3)`,
`similarChunks = foundChunks.filter(c => c.similarity > 0.3)`, and the
completion event carries `chunkCount: totalChunkCount` where
`totalChunkCount = foundChunks.length`. -/
noncomputable def askSearchStage (store : Store) (videoId : String)
    (qEmb : Embedding) : Except String AskSearchOutcome :=
  match searchSimilar store videoId qEmb 3 with
  | .error msg => .error msg
  | .ok foundChunks =>
    .ok { contextChunks :=
            foundChunks.filter (fun c => decide (SIMILARITY_THRESHOLD < c.similarity))
          chunkCount := foundChunks.length }

/-! ## Concurrency model for the store

All of `storeChunks` and `searchSimilar` is synchronous JavaScript: neither
contains an `await`, so on the Node.js event loop each runs to completion
without interleaving.  The shared mutable state is touched exactly once per
operation — `storeChunks` ends in a single `Map.set` of a freshly built
array, `searchSimilar` begins with a single `Map.get` and then works on the
array it obtained.  A concurrent execution is therefore an arbitrary
ordering of whole operations, modelled as the reader running after an
arbitrary prefix of the writer sequence. -/

/-- One `storeChunks` request. -/
structure WriteReq where
  videoId : String
  chunks : List StoreChunkIn
  embeddings : List Embedding

/-- Apply one `storeChunks` call; a throwing call leaves the store as it
was. -/
def applyStore (s : Store) (w : WriteReq) : Store :=
  match storeChunks s w.videoId w.chunks w.embeddings with
  | .ok s' => s'
  | .error _ => s

/-- Apply a sequence of `storeChunks` calls in order. -/
def applyStores (s : Store) (ws : List WriteReq) : Store :=
  ws.foldl applyStore s

/-! ## Concrete instances used by the witnesses and counterexamples -/

/-- The two-segment transcript of the spec's simple-mode scenario. -/
def segsC3 : List Segment :=
  [⟨"Hello world.".data, 0, some 1000⟩, ⟨"This is a test.".data, 1000, some 1000⟩]

/-- A ten-segment transcript (ten identical timed segments), large enough to
select the windowed chunking mode. -/
def seg10 : List Segment :=
  List.replicate 10 ⟨"aaaaaaaaaaaa".data, 0, some 1000⟩

/-- A store input chunk with index 0. -/
def cIn0 : StoreChunkIn := { text := "hello".data, wordCount := 1, index := 0 }

/-- A second store input chunk, index 1. -/
def cIn1 : StoreChunkIn := { text := "there".data, wordCount := 1, index := 1 }

/-- A stored embedding whose magnitude is exactly 10 and whose similarity
with `q0` is exactly 3/10. -/
noncomputable def e0 : Embedding := [3, 9, 3, 1]

/-- A unit query embedding. -/
noncomputable def q0 : Embedding := [1, 0, 0, 0]

/-- The single record `storeChunks "v" [cIn0] [e0]` builds. -/
noncomputable def vc0 : VectorChunk :=
  { id := "v" ++ "-" ++ toString (0 : ℕ)
    text := "hello".data
    embedding := e0
    metadata := ⟨"v", 0, none, none, 1, none, none⟩ }

/-- The store holding exactly that one record under corpus id "v". -/
noncomputable def storeA : Store := [("v", [vc0])]

theorem storeA_from_storeChunks : storeChunks [] "v" [cIn0] [e0] = .ok storeA := rfl

theorem getChunks_storeA : getChunks storeA "v" = [vc0] := rfl

/-! ### Evaluation lemmas over ℝ -/

theorem sumSq_q0 : sumSq q0 = 1 := by norm_num [q0, sumSq]

theorem sumSq_e0 : sumSq e0 = 100 := by norm_num [e0, sumSq]

theorem dot_q0_e0 : dotProduct q0 e0 = 3 := by norm_num [q0, e0, dotProduct]

theorem sqrt_sumSq_q0 : Real.sqrt (sumSq q0) = 1 := by
  rw [sumSq_q0, Real.sqrt_one]

theorem sqrt_sumSq_e0 : Real.sqrt (sumSq e0) = 10 := by
  rw [sumSq_e0, show (100 : ℝ) = 10 ^ 2 by norm_num,
    Real.sqrt_sq (by norm_num : (0 : ℝ) ≤ 10)]

theorem cos_q0_e0 : cosineSimilarity q0 e0 = .ok (3 / 10) := by
  unfold cosineSimilarity
  rw [if_neg (by simp [q0, e0])]
  simp only []
  rw [sqrt_sumSq_q0, sqrt_sumSq_e0, if_neg (by norm_num), dot_q0_e0]
  norm_num

theorem mapSims_q0_e0 : mapSims q0 [e0] 0 = .ok [⟨0, 3 / 10⟩] := by
  simp [mapSims, cos_q0_e0]

theorem find_q0_e0 : findSimilarEmbeddings q0 [e0] 3 = .ok [⟨0, 3 / 10⟩] := by
  simp [findSimilarEmbeddings, mapSims_q0_e0, sortMatches,
    List.insertionSort, List.orderedInsert]

theorem search_storeA : searchSimilar storeA "v" q0 3 = .ok [⟨vc0, 3 / 10⟩] := by
  rw [searchSimilar, getChunks_storeA, searchChunks]
  simp only [List.length_cons, List.length_nil]
  rw [if_neg (by norm_num)]
  have hemb : ([vc0].map (·.embedding)) = [e0] := rfl
  rw [hemb, find_q0_e0]
  simp [List.getD]

theorem ask_storeA : askSearchStage storeA "v" q0 = .ok ⟨[], 1⟩ := by
  have hlt : ¬ (SIMILARITY_THRESHOLD < (3 : ℝ) / 10) := by
    norm_num [SIMILARITY_THRESHOLD]
  rw [askSearchStage, search_storeA]
  simp [List.filter, hlt]

/-! ## Sorting lemmas for the top-K search -/

/-- The order C1 asserts of the sorted match list: non-increasing
similarity, and ascending candidate position on ties. -/
def MatchOrder (a b : SimMatch) : Prop :=
  b.similarity ≤ a.similarity ∧ (a.similarity = b.similarity → a.index < b.index)

theorem mapSims_ok_spec (q : Embedding) :
    ∀ (es : List Embedding) (i : ℕ) (l : List SimMatch),
      mapSims q es i = .ok l →
      l.Pairwise (fun a b => a.index < b.index) ∧
      ∀ m ∈ l, i ≤ m.index ∧ m.index < i + es.length := by
  intro es
  induction es with
  | nil =>
    intro i l h
    simp only [mapSims] at h
    injection h with h
    subst h
    simp
  | cons e es ih =>
    intro i l h
    simp only [mapSims] at h
    cases hc : cosineSimilarity q e with
    | error msg => rw [hc] at h; cases h
    | ok s =>
      rw [hc] at h
      cases hr : mapSims q es (i + 1) with
      | error msg => rw [hr] at h; cases h
      | ok rest =>
        rw [hr] at h
        injection h with h
        subst h
        obtain ⟨hp, hb⟩ := ih (i + 1) rest hr
        refine ⟨List.pairwise_cons.mpr ⟨fun m hm => ?_, hp⟩, ?_⟩
        · exact lt_of_lt_of_le (Nat.lt_succ_self i) (hb m hm).1
        · intro m hm
          rcases List.mem_cons.mp hm with rfl | hm
          · simp only [List.length_cons]
            omega
          · have := hb m hm
            simp only [List.length_cons]
            omega

theorem orderedInsert_matchOrder (x : SimMatch) (l : List SimMatch)
    (hl : l.Pairwise MatchOrder) (hx : ∀ y ∈ l, x.index < y.index) :
    (List.orderedInsert (fun a b => b.similarity ≤ a.similarity) x l).Pairwise
      MatchOrder := by
  induction l with
  | nil => simp [List.orderedInsert, MatchOrder]
  | cons b t ih =>
    rw [List.orderedInsert]
    by_cases hxb : b.similarity ≤ x.similarity
    · rw [if_pos hxb]
      refine List.pairwise_cons.mpr ⟨fun y hy => ?_, hl⟩
      rcases List.mem_cons.mp hy with rfl | hy
      · exact ⟨hxb, fun _ => hx y (List.mem_cons_self y t)⟩
      · have hby := (List.pairwise_cons.mp hl).1 y hy
        exact ⟨le_trans hby.1 hxb, fun _ => hx y (List.mem_cons_of_mem _ hy)⟩
    · rw [if_neg hxb]
      have hbx : x.similarity < b.similarity := not_le.mp hxb
      refine List.pairwise_cons.mpr ⟨fun z hz => ?_, ?_⟩
      · have hz' : z ∈ x :: t :=
          (List.perm_orderedInsert _ x t).mem_iff.mp hz
        rcases List.mem_cons.mp hz' with rfl | hz'
        · exact ⟨le_of_lt hbx, fun he => absurd he.symm (ne_of_lt hbx)⟩
        · exact (List.pairwise_cons.mp hl).1 z hz'
      · exact ih (List.pairwise_cons.mp hl).2
          (fun y hy => hx y (List.mem_cons_of_mem _ hy))

theorem sortMatches_pairwise (l : List SimMatch)
    (hl : l.Pairwise fun a b => a.index < b.index) :
    (sortMatches l).Pairwise MatchOrder := by
  induction l with
  | nil => simp [sortMatches, List.insertionSort]
  | cons x xs ih =>
    rw [sortMatches, List.insertionSort]
    have hxs := List.pairwise_cons.mp hl
    refine orderedInsert_matchOrder x _ (ih hxs.2) fun y hy => ?_
    exact hxs.1 y ((List.perm_insertionSort _ xs).mem_iff.mp hy)

theorem sortMatches_mem (l : List SimMatch) (y : SimMatch) :
    y ∈ sortMatches l ↔ y ∈ l :=
  (List.perm_insertionSort _ l).mem_iff

/-! ## Claim C1 -/

/-- C1: for every stored corpus (its records carrying ascending chunk
indices, as every collection built by `storeChunks` from chunker output
does), every query embedding and every `topK`, a successful `searchSimilar`
returns at most `topK` matches, with similarity scores non-increasing and
any two equal-score matches ordered by ascending chunk index. -/
theorem searchSimilar_topK_sorted (store : Store) (vid : String)
    (q : Embedding) (topK : ℕ) (res : List SearchResult)
    (hmono : (getChunks store vid).Pairwise
      (fun a b => a.metadata.chunkIndex < b.metadata.chunkIndex))
    (h : searchSimilar store vid q topK = .ok res) :
    res.length ≤ topK ∧
    res.Pairwise (fun a b => b.similarity ≤ a.similarity ∧
      (a.similarity = b.similarity →
        a.chunk.metadata.chunkIndex < b.chunk.metadata.chunkIndex)) := by
  rw [searchSimilar, searchChunks] at h
  by_cases h0 : (getChunks store vid).length = 0
  · rw [if_pos h0] at h
    injection h with h
    subst h
    simp
  · rw [if_neg h0] at h
    cases hf : findSimilarEmbeddings q ((getChunks store vid).map (·.embedding)) topK with
    | error msg => rw [hf] at h; cases h
    | ok ms =>
      rw [hf] at h
      injection h with h
      subst h
      rw [findSimilarEmbeddings] at hf
      cases hms : mapSims q ((getChunks store vid).map (·.embedding)) 0 with
      | error msg => rw [hms] at hf; cases hf
      | ok sims =>
        rw [hms] at hf
        injection hf with hf
        obtain ⟨hpair, hbnd⟩ := mapSims_ok_spec q _ 0 sims hms
        have hsorted : (sortMatches sims).Pairwise MatchOrder :=
          sortMatches_pairwise sims hpair
        have htake : ms.Pairwise MatchOrder :=
          hf ▸ List.Pairwise.sublist (List.take_sublist _ _) hsorted
        have hmem : ∀ m ∈ ms, m.index < (getChunks store vid).length := by
          intro m hm
          have h1 : m ∈ sortMatches sims := (List.take_sublist _ _).subset (hf ▸ hm)
          have h2 : m ∈ sims := (sortMatches_mem sims m).mp h1
          have h3 := (hbnd m h2).2
          simpa using h3
        constructor
        · have : ms.length ≤ topK := by
            rw [← hf, List.length_take]
            exact min_le_left _ _
          simpa using this
        · rw [List.pairwise_map]
          refine htake.imp_of_mem ?_
          intro a b ha hb hab
          refine ⟨hab.1, fun he => ?_⟩
          have hia := hmem a ha
          have hib := hmem b hb
          have hidx : a.index < b.index := hab.2 he
          have hgot := List.pairwise_iff_get.mp hmono ⟨a.index, hia⟩ ⟨b.index, hib⟩ hidx
          simp only [List.get_eq_getElem] at hgot
          rw [List.getD_eq_getElem _ _ hia, List.getD_eq_getElem _ _ hib]
          exact hgot

/-- Witness for C1: the one-record store `storeA`, the query `q0` and
`topK = 3` satisfy the hypotheses, and the conclusion holds of the returned
single match. -/
theorem searchSimilar_topK_sorted_witness :
    ([⟨vc0, (3 : ℝ) / 10⟩] : List SearchResult).length ≤ 3 ∧
    ([⟨vc0, (3 : ℝ) / 10⟩] : List SearchResult).Pairwise
      (fun a b => b.similarity ≤ a.similarity ∧
        (a.similarity = b.similarity →
          a.chunk.metadata.chunkIndex < b.chunk.metadata.chunkIndex)) :=
  searchSimilar_topK_sorted storeA "v" q0 3 [⟨vc0, (3 : ℝ) / 10⟩]
    (by rw [getChunks_storeA]; simp) search_storeA

/-! ## Claim C2 -/

/-- With stride `0` (the unclamped `SEGMENTS_PER_CHUNK - 5`), the windowed
loop never advances past a valid index, so no amount of fuel finishes it. -/
theorem windowLoop_stride_zero (t : List Segment) :
    ∀ (fuel i : ℕ) (acc : List TChunk), i < t.length →
      windowLoop t 0 fuel i acc = none := by
  intro fuel
  induction fuel with
  | zero => intro i acc _; rfl
  | succ n ih =>
    intro i acc h
    cases hsl : (t.drop i).take SEGMENTS_PER_CHUNK with
    | nil =>
      rw [windowLoop, if_pos h, hsl]
      exact ih i acc h
    | cons s0 srest =>
      rw [windowLoop, if_pos h, hsl]
      dsimp only
      split
      · exact ih i acc h
      · exact ih i _ h

/-- C2 counterexample: the source has no clamp, so `overlapSegments = 5` on
a ten-segment transcript gives stride `5 - 5 = 0` and the loop does not
finish within any fuel bound (1000 shown here; `windowLoop_stride_zero`
gives every bound). -/
theorem chunkTranscript_overlap5_diverges :
    chunkTranscript seg10 500 5 1000 = none ∧ SEGMENTS_PER_CHUNK - 5 = 0 := by
  constructor
  · rw [chunkTranscript, if_neg (by simp [seg10])]
    exact windowLoop_stride_zero seg10 1000 0 [] (by simp [seg10])
  · rfl

/-- With a positive stride the loop consumes at most one unit of fuel per
remaining segment. -/
theorem windowLoop_isSome (t : List Segment) (stride : ℕ) (hs : 1 ≤ stride) :
    ∀ (fuel i : ℕ) (acc : List TChunk), t.length - i < fuel →
      ∃ r, windowLoop t stride fuel i acc = some r := by
  intro fuel
  induction fuel with
  | zero => intro i acc h; exact absurd h (Nat.not_lt_zero _)
  | succ n ih =>
    intro i acc h
    by_cases hi : i < t.length
    · have hrec : t.length - (i + stride) < n := by omega
      cases hsl : (t.drop i).take SEGMENTS_PER_CHUNK with
      | nil =>
        rw [windowLoop, if_pos hi, hsl]
        exact ih (i + stride) acc hrec
      | cons s0 srest =>
        rw [windowLoop, if_pos hi, hsl]
        dsimp only
        split
        · exact ih (i + stride) acc hrec
        · exact ih (i + stride) _ hrec
    · exact ⟨acc, by rw [windowLoop, if_neg hi]⟩

/-- C2, amended: `chunkTranscript` terminates whenever the configured
overlap is between 1 and 4 (so the stride `5 - overlap` is at least 1);
the source never clamps, and for `overlapSegments ≥ 5` the windowed loop
diverges (`chunkTranscript_overlap5_diverges`). -/
theorem chunkTranscript_terminates (t : List Segment) (targetWords ov fuel : ℕ)
    (h1 : 1 ≤ ov) (h2 : ov ≤ 4) (hfuel : t.length < fuel) :
    ∃ res, chunkTranscript t targetWords ov fuel = some res := by
  rw [chunkTranscript]
  by_cases hd : ov = 0 ∨ t.length < 10
  · rw [if_pos hd]; exact ⟨_, rfl⟩
  · rw [if_neg hd]
    exact windowLoop_isSome t (SEGMENTS_PER_CHUNK - ov)
      (by simp only [SEGMENTS_PER_CHUNK]; omega) fuel 0 [] (by omega)

/-- Witness for C2 (amended): overlap 1 on the ten-segment transcript with
fuel 11 terminates. -/
theorem chunkTranscript_terminates_witness :
    ∃ res, chunkTranscript seg10 500 1 11 = some res :=
  chunkTranscript_terminates seg10 500 1 11 (by norm_num) (by norm_num)
    (by norm_num [seg10])

/-! ## Claim C3 -/

/-- C3, evaluated: on the spec scenario (two segments, `targetWords = 500`,
simple mode) the code produces exactly one chunk containing both sentences
with `startTimestampS = 0`, but its end timestamp is `undefined`, not the
claimed 2.0 seconds: the chunk's `endOffset` (28) is one past the last
character, and the scan condition `chunkEndOffset < textPos + itemLength`
is strict, so no transcript item ever contains it. -/
theorem chunkTranscript_scenario_end_undefined :
    chunkTranscript segsC3 500 1 0 =
      some [{ text := "Hello world. This is a test.".data, index := 0,
              startOffset := 0, endOffset := 28, wordCount := 6,
              timestamp := some 0, endTimestamp := none }] := by
  have h : chunkTranscript segsC3 500 1 0 =
      some [{ text := "Hello world. This is a test.".data, index := 0,
              startOffset := 0, endOffset := 28, wordCount := 6,
              timestamp := some ((0 : ℚ) / 1000), endTimestamp := none }] := rfl
  rw [show ((0 : ℚ) / 1000) = 0 from by norm_num] at h
  exact h

/-! ## Claim C4 -/

/-- C4 counterexample: `storeChunks` accepts two embeddings of different
dimensions (1 and 2) without any error — the source checks only that the
chunk and embedding counts agree, never the dimensions. -/
theorem storeChunks_accepts_mixed_dimensions :
    storeChunks [] "v" [cIn0, cIn1] [[(1 : ℝ)], [2, 3]] =
      .ok (mapSet [] "v" (buildVectorChunks "v" [cIn0, cIn1] [[(1 : ℝ)], [2, 3]])) ∧
    ([[(1 : ℝ)], [2, 3]] : List Embedding).map List.length = [1, 2] :=
  ⟨rfl, rfl⟩

/-- C4, amended: `storeChunks` fails exactly when the chunk and embedding
counts differ; it performs no dimension-consistency check, so embeddings of
mixed dimensions are installed without error. -/
theorem storeChunks_error_iff (store : Store) (vid : String)
    (chunks : List StoreChunkIn) (embeddings : List Embedding) :
    (∃ e, storeChunks store vid chunks embeddings = .error e) ↔
      chunks.length ≠ embeddings.length := by
  by_cases h : chunks.length = embeddings.length
  · simp [storeChunks, h]
  · simp [storeChunks, h]

/-! ## Claim C5 -/

theorem mapGet_mapSet_self (s : Store) (k : String) (v : List VectorChunk) :
    mapGet (mapSet s k v) k = some v := by
  induction s with
  | nil => simp [mapSet, mapGet]
  | cons p rest ih =>
    obtain ⟨k', v'⟩ := p
    by_cases h : k' = k
    · simp [mapSet, mapGet, h]
    · simp [mapSet, mapGet, h, ih]

theorem mapGet_mapSet_ne (s : Store) (k : String) (v : List VectorChunk)
    (k' : String) (h : k ≠ k') : mapGet (mapSet s k v) k' = mapGet s k' := by
  induction s with
  | nil => simp [mapSet, mapGet, h]
  | cons p rest ih =>
    obtain ⟨k0, v0⟩ := p
    by_cases h0 : k0 = k
    · subst h0
      simp [mapSet, mapGet, h]
    · simp [mapSet, mapGet, h0, ih]

/-- Any interleaving point during a sequence of `storeChunks` calls shows a
reader either the initial collection for `vid` or the complete record array
built by one single write — never a mixture.  (Each call touches the map in
one synchronous `Map.set` of a freshly built array, so operations are atomic
on the event loop.) -/
theorem getChunks_applyStores (s0 : Store) (ws : List WriteReq) (vid : String) :
    getChunks (applyStores s0 ws) vid = getChunks s0 vid ∨
    ∃ w ∈ ws, vid = w.videoId ∧
      getChunks (applyStores s0 ws) vid =
        buildVectorChunks w.videoId w.chunks w.embeddings := by
  induction ws generalizing s0 with
  | nil => left; rfl
  | cons w ws ih =>
    have hstep : applyStores s0 (w :: ws) = applyStores (applyStore s0 w) ws := rfl
    rcases ih (applyStore s0 w) with h | ⟨w', hw', heq, h⟩
    · rw [hstep, h]
      unfold applyStore
      cases hsc : storeChunks s0 w.videoId w.chunks w.embeddings with
      | error msg => left; rfl
      | ok s' =>
        have hs' : s' =
            mapSet s0 w.videoId (buildVectorChunks w.videoId w.chunks w.embeddings) := by
          rw [storeChunks] at hsc
          by_cases hl : w.chunks.length ≠ w.embeddings.length
          · rw [if_pos hl] at hsc; cases hsc
          · rw [if_neg hl] at hsc; injection hsc with hsc; exact hsc.symm
        subst hs'
        by_cases hv : vid = w.videoId
        · subst hv
          right
          refine ⟨w, List.mem_cons_self w ws, rfl, ?_⟩
          rw [getChunks, mapGet_mapSet_self]
          rfl
        · left
          rw [getChunks, mapGet_mapSet_ne s0 _ _ _ (fun he => hv he.symm)]
          rfl
    · right
      exact ⟨w', List.mem_cons_of_mem _ hw', heq, by rw [hstep]; exact h⟩

/-- C5: a `searchSimilar` running at any interleaving point of a sequence of
`storeChunks` calls computes its result from either the initial record set
for that corpus id or the full record set installed by one single write. -/
theorem search_sees_old_or_one_write (s0 : Store) (ws : List WriteReq)
    (vid : String) (q : Embedding) (topK : ℕ) :
    searchSimilar (applyStores s0 ws) vid q topK =
      searchChunks (getChunks s0 vid) q topK ∨
    ∃ w ∈ ws, vid = w.videoId ∧
      searchSimilar (applyStores s0 ws) vid q topK =
        searchChunks (buildVectorChunks w.videoId w.chunks w.embeddings) q topK := by
  rcases getChunks_applyStores s0 ws vid with h | ⟨w, hw, hv, h⟩
  · left; rw [searchSimilar, h]
  · right; exact ⟨w, hw, hv, by rw [searchSimilar, h]⟩

/-! ## Claim C6 -/

/-- C6: a search on a corpus id with no stored collection returns the empty
sequence, not an error, for every query embedding and every `topK`. -/
theorem searchSimilar_unknown_corpus (store : Store) (vid : String)
    (q : Embedding) (topK : ℕ) (h : mapGet store vid = none) :
    searchSimilar store vid q topK = .ok [] := by
  rw [searchSimilar, getChunks, h]
  rfl

/-- Witness for C6: the empty store holds nothing under "unprocessed". -/
theorem searchSimilar_unknown_corpus_witness :
    searchSimilar [] "unprocessed" [(1 : ℝ)] 5 = .ok [] :=
  searchSimilar_unknown_corpus [] "unprocessed" [(1 : ℝ)] 5 rfl

/-! ## Claim C7 -/

/-- C7: for equal-length vectors of which at least one has zero norm,
`cosineSimilarity` returns exactly 0 — no exception, no NaN. -/
theorem cosineSimilarity_zero_norm (a b : Embedding) (hlen : a.length = b.length)
    (h0 : Real.sqrt (sumSq a) = 0 ∨ Real.sqrt (sumSq b) = 0) :
    cosineSimilarity a b = .ok 0 := by
  rw [cosineSimilarity, if_neg (by simp [hlen])]
  simp only []
  rw [if_pos h0]

/-- Witness for C7: the zero vector against `[3, 4]`. -/
theorem cosineSimilarity_zero_norm_witness :
    cosineSimilarity [(0 : ℝ), 0] [3, 4] = .ok 0 :=
  cosineSimilarity_zero_norm [(0 : ℝ), 0] [3, 4] rfl
    (Or.inl (by rw [show sumSq [(0 : ℝ), 0] = 0 from by norm_num [sumSq]]
                exact Real.sqrt_zero))

/-! ## Claim C8 -/

/-- Appending one element whose index equals the current length keeps the
index sequence equal to `range`. -/
theorem idx_append {α : Type} (f : α → ℕ) (l : List α) (c : α)
    (hl : l.map f = List.range l.length) (hc : f c = l.length) :
    (l ++ [c]).map f = List.range (l ++ [c]).length := by
  simp [List.range_succ, hl, hc]

/-- The invariant of the `chunkText` loop: the next index is the number of
chunks emitted, and the emitted indices are `0..n-1` in order. -/
def CTInv (st : CTState) : Prop :=
  st.idx = st.chunks.length ∧
  st.chunks.map (·.index) = List.range st.chunks.length

theorem flushCur_inv (st : CTState) (h : CTInv st) : CTInv (flushCur st) := by
  obtain ⟨h1, h2⟩ := h
  rw [flushCur]
  by_cases hc : st.cur.isEmpty = true
  · rw [if_pos hc]; exact ⟨h1, h2⟩
  · rw [if_neg hc]
    exact ⟨by simp [h1], idx_append _ _ _ h2 h1⟩

theorem ctStep_inv (tw : ℕ) (st : CTState) (s : List Char) (h : CTInv st) :
    CTInv (ctStep tw st s) := by
  simp only [ctStep]
  by_cases h1 : tw < countWords s
  · rw [if_pos h1]
    have hf := flushCur_inv st h
    exact ⟨by simp [hf.1], idx_append _ _ _ hf.2 hf.1⟩
  · rw [if_neg h1]
    by_cases h2 : st.curWC + countWords s ≤ tw
    · rw [if_pos h2]; exact h
    · rw [if_neg h2]
      exact flushCur_inv st h

theorem foldl_ctStep_inv (tw : ℕ) (ss : List (List Char)) :
    ∀ st, CTInv st → CTInv (ss.foldl (ctStep tw) st) := by
  induction ss with
  | nil => intro st h; exact h
  | cons s ss ih => intro st h; exact ih _ (ctStep_inv tw st s h)

theorem chunkText_indices (text : List Char) (tw : ℕ) :
    (chunkText text tw).map (·.index) = List.range (chunkText text tw).length := by
  simp only [chunkText]
  split
  · rfl
  · split
    · rfl
    · exact (flushCur_inv _ (foldl_ctStep_inv tw (sentencesOf text)
        ⟨[], [], 0, 0, 0⟩ ⟨rfl, rfl⟩)).2

theorem chunkTranscriptSimple_indices (t : List Segment) (tw : ℕ) :
    (chunkTranscriptSimple t tw).map (·.index) =
      List.range (chunkTranscriptSimple t tw).length := by
  rw [chunkTranscriptSimple, List.map_map, List.length_map]
  exact chunkText_indices _ tw

theorem windowLoop_indices (t : List Segment) (stride : ℕ) :
    ∀ (fuel i : ℕ) (acc res : List TChunk),
      acc.map (·.index) = List.range acc.length →
      windowLoop t stride fuel i acc = some res →
      res.map (·.index) = List.range res.length := by
  intro fuel
  induction fuel with
  | zero => intro i acc res _ h; cases h
  | succ n ih =>
    intro i acc res hacc h
    by_cases hi : i < t.length
    · cases hsl : (t.drop i).take SEGMENTS_PER_CHUNK with
      | nil =>
        rw [windowLoop, if_pos hi, hsl] at h
        exact ih _ _ _ hacc h
      | cons s0 srest =>
        rw [windowLoop, if_pos hi, hsl] at h
        dsimp only at h
        by_cases ht :
            (trimStr (List.intercalate [' '] ((s0 :: srest).map (·.text)))).length < 10
        · rw [if_pos ht] at h
          exact ih _ _ _ hacc h
        · rw [if_neg ht] at h
          exact ih _ _ _ (idx_append _ _ _ hacc rfl) h
    · rw [windowLoop, if_neg hi] at h
      injection h with h
      subst h
      exact hacc

/-- C8: every chunk sequence produced by `chunkText`, by
`chunkTranscriptSimple`, and by a terminating `chunkTranscript` (either
mode) carries index values exactly `0..N-1`, in order. -/
theorem chunk_indices_contiguous :
    (∀ text tw, (chunkText text tw).map (·.index) =
        List.range (chunkText text tw).length) ∧
    (∀ t tw, (chunkTranscriptSimple t tw).map (·.index) =
        List.range (chunkTranscriptSimple t tw).length) ∧
    (∀ t tw ov fuel res, chunkTranscript t tw ov fuel = some res →
        res.map (·.index) = List.range res.length) := by
  refine ⟨chunkText_indices, chunkTranscriptSimple_indices, ?_⟩
  intro t tw ov fuel res h
  rw [chunkTranscript] at h
  by_cases hd : ov = 0 ∨ t.length < 10
  · rw [if_pos hd] at h
    injection h with h
    subst h
    exact chunkTranscriptSimple_indices t tw
  · rw [if_neg hd] at h
    exact windowLoop_indices t _ fuel 0 [] res rfl h

/-! ## Claim C9 -/

/-- C9 counterexample: a search can return a match whose similarity is
exactly the 0.3 threshold (query `q0`, stored embedding `e0`, similarity
3/10); that match is not below the threshold, yet the ask route's filter
uses a strict `>` and excludes it from the grounding context while still
reporting `chunkCount = 1`. -/
theorem ask_threshold_strict_cex :
    searchSimilar storeA "v" q0 3 = .ok [⟨vc0, 3 / 10⟩] ∧
    askSearchStage storeA "v" q0 = .ok ⟨[], 1⟩ ∧
    SIMILARITY_THRESHOLD ≤ (3 : ℝ) / 10 :=
  ⟨search_storeA, ask_storeA, by norm_num [SIMILARITY_THRESHOLD]⟩

/-- C9, amended: a returned match enters the grounding context if and only
if its similarity is strictly greater than the 0.3 threshold (matches at
exactly 0.3 are excluded), and the reported `chunkCount` is the raw number
of matches returned by the search, counting filtered-out matches too. -/
theorem askSearchStage_filter (store : Store) (vid : String) (q : Embedding)
    (found : List SearchResult) (outcome : AskSearchOutcome)
    (hf : searchSimilar store vid q 3 = .ok found)
    (ho : askSearchStage store vid q = .ok outcome) :
    outcome.chunkCount = found.length ∧
    ∀ c, c ∈ outcome.contextChunks ↔
      c ∈ found ∧ SIMILARITY_THRESHOLD < c.similarity := by
  rw [askSearchStage, hf] at ho
  injection ho with ho
  subst ho
  refine ⟨rfl, fun c => ?_⟩
  simp [List.mem_filter]

/-- Witness for C9 (amended), at the concrete store `storeA`. -/
theorem askSearchStage_filter_witness :
    (AskSearchOutcome.mk [] 1).chunkCount =
      ([⟨vc0, (3 : ℝ) / 10⟩] : List SearchResult).length ∧
    ∀ c, c ∈ (AskSearchOutcome.mk [] 1).contextChunks ↔
      c ∈ ([⟨vc0, (3 : ℝ) / 10⟩] : List SearchResult) ∧
        SIMILARITY_THRESHOLD < c.similarity :=
  askSearchStage_filter storeA "v" q0 _ _ search_storeA ask_storeA

/-! ## Claim C10 -/

/-- C10: searching a non-empty stored collection with a query embedding
whose length differs from every stored embedding's length throws the
dimension-mismatch error of `cosineSimilarity` instead of returning a
result sequence. -/
theorem searchSimilar_dim_mismatch (store : Store) (vid : String)
    (q : Embedding) (topK : ℕ)
    (hne : getChunks store vid ≠ [])
    (hdim : ∀ c ∈ getChunks store vid, c.embedding.length ≠ q.length) :
    searchSimilar store vid q topK = .error "Embedding dimensions don't match" := by
  obtain ⟨c, rest, hch⟩ : ∃ c rest, getChunks store vid = c :: rest := by
    cases h' : getChunks store vid with
    | nil => exact absurd h' hne
    | cons a l => exact ⟨a, l, rfl⟩
  rw [searchSimilar, hch, searchChunks]
  rw [if_neg (by simp)]
  have hc : cosineSimilarity q c.embedding = .error "Embedding dimensions don't match" := by
    rw [cosineSimilarity,
      if_pos (Ne.symm (hdim c (by rw [hch]; exact List.mem_cons_self c rest)))]
  simp [findSimilarEmbeddings, mapSims, hc]

/-- Witness for C10: `storeA` holds 4-dimensional embeddings; a 2-dimensional
query throws. -/
theorem searchSimilar_dim_mismatch_witness :
    searchSimilar storeA "v" [(1 : ℝ), 2] 3 = .error "Embedding dimensions don't match" :=
  searchSimilar_dim_mismatch storeA "v" [(1 : ℝ), 2] 3
    (by rw [getChunks_storeA]; simp)
    (by rw [getChunks_storeA]
        intro c hc
        rw [List.mem_singleton] at hc
        subst hc
        simp [vc0, e0])
